import Mathlib

/-!
Verification development for the CommitBot repository.

The Lean definitions below are a shallow embedding of the Python sources
`src/git_analyzer.py` (class `GitAnalyzer`) and `src/git_commit_agent.py`
(class `GitCommitAgent`).  External collaborators (the git library and the
LLM provider transports) are modelled as explicit oracles: every call that
can raise a Python exception is embedded as an `Except`-valued function,
and every value the program reads from a collaborator is a field of an
explicit model structure.  Console output is modelled as an explicit log.
-/

/-! ## Diff-text counting (git_analyzer.py, lines 40-41 and 72-73)

`GitAnalyzer.get_staged_changes` computes `diff_text.count('\n+')` and
`diff_text.count('\n-')`.  Python `str.count` counts non-overlapping
occurrences of the two-character substring; since the two characters of
the pattern differ, occurrences can never overlap, so the count is exactly
the number of positions holding a newline immediately followed by the
marker character. -/

/-- Embedding of Python `s.count('\n' + c)` for a single marker character
`c ≠ '\n'`: the number of positions of `s` holding a `'\n'` whose next
character is `c`. -/
def count_nl_marker (c : Char) : List Char → Nat
  | a :: b :: rest => (if a = '\n' ∧ b = c then 1 else 0) + count_nl_marker c (b :: rest)
  | _ => 0

/-- Splitting a character list at newline characters, with the semantics of
Python `s.split('\n')`: `n` newline characters yield `n + 1` (possibly
empty) lines. -/
def linesOf : List Char → List (List Char)
  | [] => [[]]
  | c :: rest =>
    let ls := linesOf rest
    if c = '\n' then [] :: ls else (c :: ls.headD []) :: ls.tail

/-- Embedding of Python `s.split('\n')` on strings. -/
def split_lines (s : String) : List String :=
  (linesOf s.data).map (fun l => String.mk l)

/-- Embedding of the Python expression `path.split('.')[-1]`: the suffix of
`s` after its last occurrence of `sep` (the whole of `s` when `sep` does
not occur). -/
def after_last (sep : Char) (s : List Char) : List Char :=
  s.foldl (fun acc c => if c = sep then [] else acc ++ [c]) []

/-- Embedding of the Python expression
`path.split('.')[-1] if '.' in path else 'unknown'`
(git_analyzer.py line 43 / line 75). -/
def file_type_of (p : String) : String :=
  if p.data.contains '.' then String.mk (after_last '.' p.data) else "unknown"

/-! ## Data model of one staged change -/

/-- One element of the `changes` list built by
`GitAnalyzer.get_staged_changes` (the `change_info` dict,
git_analyzer.py lines 37-44 and 69-76). -/
structure ChangeInfo where
  path : String
  change_type : String
  additions : Nat
  deletions : Nat
  diff : String
  file_type : String
deriving DecidableEq, Repr

/-- The `change_info` dict constructor shared by both branches of
`get_staged_changes`: both build exactly these fields, with
`additions`/`deletions` counted from the raw diff text of that file. -/
def mk_change_info (path : String) (diff_text : String) (ct : String) : ChangeInfo :=
  { path := path
    change_type := ct
    additions := count_nl_marker '+' diff_text.data
    deletions := count_nl_marker '-' diff_text.data
    diff := diff_text
    file_type := file_type_of path }

/-- One entry of `self.repo.index.diff("HEAD")` as read by the code:
the path and the three change-kind flags it inspects. -/
structure DiffEntry where
  a_path : String
  new_file : Bool
  deleted_file : Bool
  renamed : Bool
deriving DecidableEq, Repr

/-- The exceptions distinguished by the inner `try` of the new-repository
branch (git_analyzer.py lines 63-67): `KeyError` and `ValueError` are
caught there; any other exception escapes to the per-file handler. -/
inductive TreeErr where
  | keyError
  | valueError
  | other (msg : String)
deriving DecidableEq, Repr

/-- A message printed on the rich console, tagged with its markup style. -/
inductive ConsoleMsg where
  | info (s : String)
  | warning (s : String)
  | error (s : String)
deriving DecidableEq, Repr

/-- Oracle model of the git repository as consumed by `GitAnalyzer`:
each field is one external call the class makes, `Except`-valued where the
call can raise. -/
structure GitRepoModel where
  /-- `self.repo.index.diff("HEAD")`; raises in a repository with no commits. -/
  index_diff_head : Except String (List DiffEntry)
  /-- `self.repo.git.diff('--cached', path)` for a given path. -/
  git_diff_cached : String → Except String String
  /-- `self.repo.git.diff('--cached', '--name-only')`. -/
  name_only_output : Except String String
  /-- `self.repo.head.commit.tree[path]`, reduced to its success/failure. -/
  tree_lookup : String → Except TreeErr Unit
  /-- `self.repo.untracked_files`. -/
  untracked_files : List String

/-- The change-type chain of the with-history branch
(git_analyzer.py lines 29-35): default `'M'`, overridden by the
`new_file` / `deleted_file` / `renamed` flags in that order. -/
def change_type_of (d : DiffEntry) : String :=
  if d.new_file then "A"
  else if d.deleted_file then "D"
  else if d.renamed then "R"
  else "M"

/-- Body of the per-file `try` of the with-history branch
(git_analyzer.py lines 24-45): fetch the raw diff, then build the record. -/
def processEntry (get_diff : String → Except String String) (d : DiffEntry) :
    Except String ChangeInfo :=
  match get_diff d.a_path with
  | .error e => .error e
  | .ok diff_text => .ok (mk_change_info d.a_path diff_text (change_type_of d))

/-- Body of the per-file `try` of the new-repository branch
(git_analyzer.py lines 58-77): fetch the raw diff, classify by looking the
path up in `head.commit.tree` (`'M'` on success, `'A'` on `KeyError` or
`ValueError`, any other exception escapes), then build the record. -/
def processNewFile (get_diff : String → Except String String)
    (lookup : String → Except TreeErr Unit) (f : String) :
    Except String ChangeInfo :=
  match get_diff f with
  | .error e => .error e
  | .ok diff_text =>
    match lookup f with
    | .ok _ => .ok (mk_change_info f diff_text "M")
    | .error .keyError => .ok (mk_change_info f diff_text "A")
    | .error .valueError => .ok (mk_change_info f diff_text "A")
    | .error (.other e) => .error e

/-- The warning printed by both per-file exception handlers
(git_analyzer.py lines 47 and 79). -/
def warn_msg (path e : String) : ConsoleMsg :=
  .warning ("Could not process file " ++ path ++ ": " ++ e)

/-- The loop shape shared by both branches of `get_staged_changes`:
process each item, appending the record on success and a console warning on
a caught per-file exception, never aborting the remaining items. -/
def collect_with_warnings {α : Type} (proc : α → Except String ChangeInfo)
    (path_of : α → String) (items : List α) :
    List ChangeInfo × List ConsoleMsg :=
  items.foldl
    (fun acc it =>
      match proc it with
      | .ok ci => (acc.1 ++ [ci], acc.2)
      | .error e => (acc.1, acc.2 ++ [warn_msg (path_of it) e]))
    ([], [])

/-- Embedding of `GitAnalyzer.get_staged_changes`
(git_analyzer.py lines 15-81).  The result pairs the returned `changes`
list with the console messages printed.  When `index.diff("HEAD")` raises
(new repository), the staged paths are re-enumerated from
`git diff --cached --name-only` (split at newlines, empty strings removed);
a failure of that call escapes the function. -/
def get_staged_changes (repo : GitRepoModel) :
    Except String (List ChangeInfo × List ConsoleMsg) :=
  match repo.index_diff_head with
  | .ok staged_diff =>
    .ok (collect_with_warnings (processEntry repo.git_diff_cached)
      (fun d => d.a_path) staged_diff)
  | .error _ =>
    match repo.name_only_output with
    | .error e => .error e
    | .ok out =>
      let staged_files := (split_lines out).filter (fun f => decide (f ≠ ""))
      let r := collect_with_warnings
        (processNewFile repo.git_diff_cached repo.tree_lookup)
        (fun f => f) staged_files
      .ok (r.1, ConsoleMsg.info "Processing new repository..." :: r.2)

/-- Embedding of `GitAnalyzer.get_untracked_files` (git_analyzer.py lines 83-85). -/
def get_untracked_files (repo : GitRepoModel) : List String :=
  repo.untracked_files

/-! ## Elementary lemmas about the counting helpers -/

theorem linesOf_ne_nil (s : List Char) : linesOf s ≠ [] := by
  cases s with
  | nil => simp [linesOf]
  | cons c rest =>
    simp only [linesOf]
    split <;> simp

/-- The first line of `s` begins with `c` iff `s` begins with `c`
(for a marker `c` that is not the newline itself). -/
theorem head_linesOf (c : Char) (hc : c ≠ '\n') (s : List Char) :
    ((linesOf s).headD []).head? = some c ↔ s.head? = some c := by
  cases s with
  | nil => simp [linesOf]
  | cons a rest =>
    simp only [linesOf]
    by_cases ha : a = '\n'
    · subst ha
      simp only [if_pos rfl]
      simp only [List.headD_cons, List.head?_nil, List.head?_cons]
      constructor
      · intro h; exact absurd h (by simp)
      · intro h
        exact absurd (Option.some.inj h).symm hc
    · simp [if_neg ha]

/-- `count_nl_marker` counts exactly the lines other than the first that
begin with the marker character (header lines included, nothing excluded). -/
theorem count_nl_marker_eq_countP (c : Char) (hc : c ≠ '\n') (s : List Char) :
    count_nl_marker c s =
      ((linesOf s).drop 1).countP (fun l => decide (l.head? = some c)) := by
  induction s with
  | nil => simp [count_nl_marker, linesOf]
  | cons a rest ih =>
    cases rest with
    | nil =>
      by_cases ha : a = '\n' <;>
        simp [count_nl_marker, linesOf, ha]
    | cons b rest2 =>
      by_cases ha : a = '\n'
      · subst ha
        have hcount : count_nl_marker c ('\n' :: b :: rest2) =
            (if b = c then 1 else 0) + count_nl_marker c (b :: rest2) := by
          simp [count_nl_marker]
        rw [hcount]
        have hlines : (linesOf ('\n' :: b :: rest2)).drop 1 = linesOf (b :: rest2) := by
          simp [linesOf]
        rw [hlines]
        obtain ⟨h, t, hht⟩ : ∃ h t, linesOf (b :: rest2) = h :: t := by
          cases hl : linesOf (b :: rest2) with
          | nil => exact absurd hl (linesOf_ne_nil _)
          | cons h t => exact ⟨h, t, rfl⟩
        rw [hht, List.countP_cons]
        have hhead : (decide (h.head? = some c)) = decide (b = c) := by
          apply decide_eq_decide.mpr
          have hiff := head_linesOf c hc (b :: rest2)
          rw [hht] at hiff
          simp only [List.headD_cons, List.head?_cons] at hiff
          rw [hiff]
          simp
        have htail : t = (linesOf (b :: rest2)).drop 1 := by
          rw [hht]; rfl
        rw [htail, ← ih]
        rw [hhead]
        by_cases hb : b = c <;> simp [hb, Nat.add_comm]
      · have hcount : count_nl_marker c (a :: b :: rest2) =
            count_nl_marker c (b :: rest2) := by
          simp [count_nl_marker, ha]
        have hlines : (linesOf (a :: b :: rest2)).drop 1 =
            (linesOf (b :: rest2)).drop 1 := by
          simp only [linesOf, if_neg ha]
          cases hl : linesOf (b :: rest2) with
          | nil => exact absurd hl (linesOf_ne_nil _)
          | cons h t => simp
        rw [hcount, hlines, ih]

/-! ## The change-set analysis (git_analyzer.py lines 87-121 and
git_commit_agent.py lines 181-209)

`GitAnalyzer.analyze_changes` and `GitCommitAgent.analyze_changes` run the
same per-change loop; the analyzer version additionally carries a
`summary` string and converts the `file_types` set to a list at the end.
Python `set` iterates in an unspecified (hash) order; the model keeps
first-insertion order, which no claim depends on.  Python `dict` preserves
insertion order, which the association-list model mirrors exactly. -/

/-- One element of the `files_changed` list. -/
structure FileChanged where
  path : String
  change_type : String
  changes : String
deriving DecidableEq, Repr

/-- The analysis accumulator dict built by both `analyze_changes` loops. -/
structure Analysis where
  file_types : List String
  total_additions : Nat
  total_deletions : Nat
  changes_by_type : List (String × Nat)
  major_changes : List String
  files_changed : List FileChanged
deriving DecidableEq, Repr

/-- The initial analysis dict (all counts zero, all containers empty). -/
def init_analysis : Analysis :=
  { file_types := []
    total_additions := 0
    total_deletions := 0
    changes_by_type := []
    major_changes := []
    files_changed := [] }

/-- `analysis['changes_by_type']` update: insert the key with count 0 when
absent, then increment it (insertion order preserved, as in Python). -/
def bump_type (d : List (String × Nat)) (k : String) : List (String × Nat) :=
  match d with
  | [] => [(k, 1)]
  | (k', v) :: rest => if k' = k then (k', v + 1) :: rest else (k', v) :: bump_type rest k

/-- `analysis['file_types'].add(...)`: set insertion, modelled in
first-insertion order. -/
def add_file_type (s : List String) (t : String) : List String :=
  if s.contains t then s else s ++ [t]

/-- One iteration of the `for change in changes:` loop shared verbatim by
`GitAnalyzer.analyze_changes` (lines 102-117) and
`GitCommitAgent.analyze_changes` (lines 192-207). -/
def analysis_step (a : Analysis) (ch : ChangeInfo) : Analysis :=
  { file_types := add_file_type a.file_types ch.file_type
    total_additions := a.total_additions + ch.additions
    total_deletions := a.total_deletions + ch.deletions
    changes_by_type := bump_type a.changes_by_type ch.change_type
    major_changes :=
      if 50 < ch.additions + ch.deletions
      then a.major_changes ++ [ch.path]
      else a.major_changes
    files_changed := a.files_changed ++
      [{ path := ch.path
         change_type := ch.change_type
         changes := "+" ++ toString ch.additions ++ ", -" ++ toString ch.deletions }] }

/-- Embedding of `GitCommitAgent.analyze_changes`
(git_commit_agent.py lines 181-209). -/
def agent_analyze_changes (changes : List ChangeInfo) : Analysis :=
  changes.foldl analysis_step init_analysis

/-- `change_type_desc` mapping (git_analyzer.py lines 144-150 and
git_commit_agent.py lines 291-297): `dict.get(change_type, change_type)`. -/
def change_type_desc (ct : String) : String :=
  if ct = "M" then "Modified existing file"
  else if ct = "A" then "New file"
  else if ct = "D" then "Deleted file"
  else if ct = "R" then "Renamed file"
  else if ct = "T" then "Type changed"
  else ct

/-- The per-change block appended to the summary string
(git_analyzer.py lines 152-160 and git_commit_agent.py lines 299-307). -/
def change_block (ch : ChangeInfo) : String :=
  "File: " ++ ch.path ++ "\n" ++
  "Change Status: " ++ change_type_desc ch.change_type ++ "\n" ++
  "Changes: +" ++ toString ch.additions ++ ", -" ++ toString ch.deletions ++ "\n" ++
  "File type: " ++ ch.file_type ++ "\n" ++
  "Change description: Changes to this file include modifications to " ++
  "add or update functionality as shown in the diff below.\n" ++
  "Diff:\n" ++ ch.diff ++ "\n\n"

/-- The summary-string body shared by `GitAnalyzer._prepare_changes_summary`
(lines 136-165) and `GitCommitAgent._prepare_changes_summary`
(lines 286-312): header, one block per change, then the untracked listing
when non-empty. -/
def prepare_changes_summary (changes : List ChangeInfo) (untracked : List String) : String :=
  (changes.foldl (fun acc ch => acc ++ change_block ch) "Changes to be committed:\n\n") ++
  (if untracked.isEmpty then ""
   else "\nUntracked files:\n" ++ String.intercalate "\n" untracked)

/-- Embedding of `GitAnalyzer._prepare_changes_summary`: it re-reads the
staged changes and untracked files from the repository. -/
def analyzer_prepare_changes_summary (repo : GitRepoModel) : Except String String :=
  match get_staged_changes repo with
  | .error e => .error e
  | .ok (staged, _) => .ok (prepare_changes_summary staged (get_untracked_files repo))

/-- Result dict of `GitAnalyzer.analyze_changes`: the loop accumulator plus
the `summary` field (the final `list(...)` conversion of the `file_types`
set is the identity on the list model). -/
structure AnalyzerResult where
  analysis : Analysis
  summary : String
deriving DecidableEq, Repr

/-- Embedding of `GitAnalyzer.analyze_changes` (git_analyzer.py
lines 87-121): reads the staged changes, computes the `summary` field via
`_prepare_changes_summary` (which re-reads them), and runs the shared loop. -/
def analyzer_analyze_changes (repo : GitRepoModel) : Except String AnalyzerResult :=
  match get_staged_changes repo with
  | .error e => .error e
  | .ok (changes, _) =>
    match analyzer_prepare_changes_summary repo with
    | .error e => .error e
    | .ok s => .ok { analysis := changes.foldl analysis_step init_analysis, summary := s }

/-! ## Lemmas about the analysis fold -/

theorem foldl_step_total_additions (l : List ChangeInfo) :
    ∀ a : Analysis, (l.foldl analysis_step a).total_additions =
      a.total_additions + (l.map ChangeInfo.additions).sum := by
  induction l with
  | nil => intro a; simp
  | cons c l ih =>
    intro a
    simp only [List.foldl_cons, List.map_cons, List.sum_cons]
    rw [ih]
    simp [analysis_step]
    omega

theorem foldl_step_total_deletions (l : List ChangeInfo) :
    ∀ a : Analysis, (l.foldl analysis_step a).total_deletions =
      a.total_deletions + (l.map ChangeInfo.deletions).sum := by
  induction l with
  | nil => intro a; simp
  | cons c l ih =>
    intro a
    simp only [List.foldl_cons, List.map_cons, List.sum_cons]
    rw [ih]
    simp [analysis_step]
    omega

theorem foldl_step_major_changes (l : List ChangeInfo) :
    ∀ a : Analysis, (l.foldl analysis_step a).major_changes =
      a.major_changes ++
        (l.filter (fun c => decide (50 < c.additions + c.deletions))).map ChangeInfo.path := by
  induction l with
  | nil => intro a; simp
  | cons c l ih =>
    intro a
    simp only [List.foldl_cons, List.filter_cons]
    rw [ih]
    by_cases hc : 50 < c.additions + c.deletions
    · simp [analysis_step, hc]
    · simp [analysis_step, hc]

/-! ## The conversation orchestrator (git_commit_agent.py)

`GitCommitAgent._call_ai_api` (lines 94-123) branches on `self.api_type`:
the `'openai'` branch sends the message list, the function declarations and
the `function_call` argument to the chat-completions endpoint; every other
`api_type` (both `'anthropic'` and `'local'`) falls into the `else` branch,
which flattens the conversation into a single prompt string and sends it as
one user message with `max_tokens=2000` - without the function
declarations and without the `function_call` argument.  The model below
captures the provider-visible request each branch constructs. -/

/-- The parse of the provider-sent `arguments` JSON string: the code runs
`json.loads` on it (git_commit_agent.py line 323) before any name dispatch.
`parsed` carries the resulting object restricted to its string-valued
fields (the only ones the code reads); `malformed` models a `json.loads`
failure, which raises out of `_handle_ai_response`. -/
inductive ArgsVal where
  | parsed (fields : List (String × String))
  | malformed
deriving DecidableEq, Repr

/-- A function call attached to a provider response: a name and the parsed
arguments payload.  The OpenAI branch reads `.name`/`.arguments`
attributes, the Anthropic branch reads `['name']`/`['arguments']` keys of
the dict built by `_parse_anthropic_response`; both are the same data. -/
structure FunctionCallVal where
  name : String
  arguments : ArgsVal
deriving DecidableEq, Repr

/-- One entry of `self.conversation_history`, a Python dict with `role`,
`content` (possibly `None`) and, on assistant entries, `function_call`. -/
structure ChatMessage where
  role : String
  content : Option String
  function_call : Option FunctionCallVal
deriving DecidableEq, Repr

/-- The normalized return value of `_call_ai_api`
(`{'content': ..., 'function_call': ...}`). -/
structure AIResponse where
  content : Option String
  function_call : Option FunctionCallVal
deriving DecidableEq, Repr

/-- The `self.api_type` discriminator set in `GitCommitAgent.__init__`
(lines 17-27): `'openai'` for gpt models, `'anthropic'` for claude models,
`'local'` when the `local` flag picks the Ollama-backed OpenAI client. -/
inductive ApiType where
  | openai
  | anthropic
  | local
deriving DecidableEq, Repr

/-- The provider-visible request constructed by one `_call_ai_api` call:
an OpenAI chat-completions request (messages, function declarations and
the optional forced `function_call`) or an Anthropic messages request
(`max_tokens` and a single flattened user message, no tool fields). -/
inductive ProviderRequest where
  | openai (model : String) (messages : List ChatMessage)
      (functions : List String) (function_call : Option String)
  | anthropic (model : String) (max_tokens : Nat) (messages : List ChatMessage)
deriving DecidableEq, Repr

/-- Python `f"...{content}..."` rendering of a possibly-`None` content
value: `None` prints as the string `"None"`. -/
def py_str_opt (c : Option String) : String := c.getD "None"

/-- Embedding of `GitCommitAgent._convert_to_anthropic_prompt`
(lines 125-135): concatenate `System:`/`Human:`/`Assistant:` blocks for
the three recognized roles (any other role contributes nothing), then
`strip()`. -/
def convert_to_anthropic_prompt (messages : List ChatMessage) : String :=
  (messages.foldl
    (fun acc m =>
      if m.role = "system" then acc ++ "System: " ++ py_str_opt m.content ++ "\n\n"
      else if m.role = "user" then acc ++ "Human: " ++ py_str_opt m.content ++ "\n\n"
      else if m.role = "assistant" then acc ++ "Assistant: " ++ py_str_opt m.content ++ "\n\n"
      else acc)
    "").trim

/-- The names of the two function declarations returned by
`GitCommitAgent.get_available_functions` (lines 29-92); the JSON schema
bodies are constant data never inspected by the control flow. -/
def available_function_names : List String :=
  ["analyze_changes", "format_commit_message"]

/-- The provider-visible request built by `GitCommitAgent._call_ai_api`
(lines 94-123) from the api type, model name, message list and
`function_call` argument.  Only the `'openai'` branch forwards the
function declarations and the `function_call` argument; the `else` branch
(taken for both `'anthropic'` and `'local'`) sends a single flattened user
message with `max_tokens=2000` and drops `function_call` entirely. -/
def call_ai_api (api_type : ApiType) (model : String) (messages : List ChatMessage)
    (function_call : Option String) : ProviderRequest :=
  match api_type with
  | .openai => .openai model messages available_function_names function_call
  | .anthropic => .anthropic model 2000
      [{ role := "user", content := some (convert_to_anthropic_prompt messages),
         function_call := none }]
  | .local => .anthropic model 2000
      [{ role := "user", content := some (convert_to_anthropic_prompt messages),
         function_call := none }]

/-- The forced tool choice a provider can observe in a request: the
`function_call` field of an OpenAI-style request; an Anthropic-style
request has no such field. -/
def observed_function_call : ProviderRequest → Option String
  | .openai _ _ _ fc => fc
  | .anthropic _ _ _ => none

/-- The message list carried by a provider request. -/
def request_messages : ProviderRequest → List ChatMessage
  | .openai _ ms _ _ => ms
  | .anthropic _ _ ms => ms

/-- The system prompt of `decide_next_action`
(git_commit_agent.py lines 224-257), transcribed verbatim from the Python
triple-quoted literal (including its indentation). -/
def system_prompt : String :=
  "You are a Git commit assistant that generates precise commit messages based ONLY on the actual changes provided. Follow these strict rules:\n" ++
  "\n" ++
  "                1. First line format must be: \x7btype\x7d: \x7bshort description\x7d\n" ++
  "                   - Type MUST be one of: feat, fix, docs, style, refactor, perf, test, build, ci, chore\n" ++
  "                   - Description must be under 100 chars and describe the actual change\n" ++
  "                   - Never end with a period\n" ++
  "                   - Use imperative mood (\"add\" not \"adds\" or \"added\")\n" ++
  "                   - For modifications to existing code, use verbs like \"update\", \"modify\", \"enhance\"\n" ++
  "                   - Only use \"add\" when introducing completely new files or features\n" ++
  "                \n" ++
  "                2. Add exactly TWO blank lines after the first line\n" ++
  "                \n" ++
  "                3. Detailed description must:\n" ++
  "                   - Only describe changes that are actually present in the diff\n" ++
  "                   - Pay strict attention to the Change Status of each file:\n" ++
  "                     * \"Modified existing file\" means the file existed before and was changed\n" ++
  "                     * \"New file\" means this is the first commit introducing this file\n" ++
  "                   - Start with a clear overview of what the changes accomplish\n" ++
  "                   - Include a file-by-file breakdown for multiple file changes\n" ++
  "                   - For modified files:\n" ++
  "                     * Focus on what was changed in the file\n" ++
  "                     * Describe specific modifications made\n" ++
  "                     * Don\x27t describe the file as new or added\n" ++
  "                   - For new files:\n" ++
  "                     * Indicate that they are new additions\n" ++
  "                   - Use bullet points for multiple changes\n" ++
  "                   - Be precise about what was actually changed\n" ++
  "                   - Never make assumptions about changes not shown in the diff\n" ++
  "                \n" ++
  "                4. Common mistakes to avoid:\n" ++
  "                   - Don\x27t say a file was \"added\" if its Change Status is \"Modified existing file\"\n" ++
  "                   - Don\x27t describe existing features or classes as new\n" ++
  "                   - Don\x27t include changes that aren\x27t in the diff\n" ++
  "                   - Don\x27t speculate about future changes"

/-- The user-message content of the first provider call
(git_commit_agent.py line 261): the fixed instruction followed by the
serialized change summary with every raw diff. -/
def initial_user_content (changes : List ChangeInfo) (untracked : List String) : String :=
  "Analyze these changes and generate a commit message that precisely describes them:\n\n" ++
  prepare_changes_summary changes untracked

/-- The `self.conversation_history` value built at the start of
`decide_next_action` (lines 221-263): the system message and the user
message. -/
def initial_history (changes : List ChangeInfo) (untracked : List String) :
    List ChatMessage :=
  [{ role := "system", content := some system_prompt, function_call := none },
   { role := "user", content := some (initial_user_content changes untracked),
     function_call := none }]

/-- The first provider call issued by `decide_next_action` (lines 265-269):
`_call_ai_api(self.conversation_history, function_call={"name": "analyze_changes"})`. -/
def first_call_request (api_type : ApiType) (model : String)
    (changes : List ChangeInfo) (untracked : List String) : ProviderRequest :=
  call_ai_api api_type model (initial_history changes untracked) (some "analyze_changes")

/-- Python `repr` of the `changes_by_type` dict (string keys, int values,
insertion order). -/
def py_dict_repr (d : List (String × Nat)) : String :=
  "\x7b" ++
  String.intercalate ", " (d.map (fun kv => "\x27" ++ kv.1 ++ "\x27: " ++ toString kv.2)) ++
  "\x7d"

/-- The user-message content appended by `_continue_conversation`
(git_commit_agent.py lines 341-355), transcribed verbatim from the Python
triple-quoted f-string. -/
def analysis_user_content (a : Analysis) : String :=
  "Based on this analysis of the changes:\n" ++
  "            \n" ++
  "            Files modified: " ++ toString a.files_changed.length ++ "\n" ++
  "            Total changes: +" ++ toString a.total_additions ++ ", -" ++
    toString a.total_deletions ++ "\n" ++
  "            File types: " ++ String.intercalate ", " a.file_types ++ "\n" ++
  "            Change types: " ++ py_dict_repr a.changes_by_type ++ "\n" ++
  "            Major changes: " ++
    (if a.major_changes.isEmpty then "None"
     else String.intercalate ", " a.major_changes) ++ "\n" ++
  "            \n" ++
  "            Remember:\n" ++
  "            1. These files are MODIFIED, not new\n" ++
  "            2. Focus on what specifically changed in each file\n" ++
  "            3. Describe the actual modifications shown in the diff\n" ++
  "            4. Don\x27t describe files or classes as new unless marked as \x27New file\x27\n" ++
  "            \n" ++
  "            Generate a detailed commit message following the required format."

/-- The analysis message appended to the conversation by
`_continue_conversation` before its provider call. -/
def analysis_user_message (a : Analysis) : ChatMessage :=
  { role := "user", content := some (analysis_user_content a), function_call := none }

/-- The second provider call issued by `_continue_conversation`
(git_commit_agent.py lines 337-361): the conversation so far plus the
appended analysis message, with
`function_call={"name": "format_commit_message"}`. -/
def continue_conversation_request (api_type : ApiType) (model : String)
    (history : List ChatMessage) (a : Analysis) : ProviderRequest :=
  call_ai_api api_type model (history ++ [analysis_user_message a])
    (some "format_commit_message")

/-- `function_args[k]` on the parsed arguments object; `none` models the
`KeyError` a missing key raises. -/
def lookup_field (fields : List (String × String)) (k : String) : Option String :=
  (fields.find? (fun kv => decide (kv.1 = k))).map (fun kv => kv.2)

/-- The dispatch performed by one `GitCommitAgent._handle_ai_response` call
(lines 314-335) on a single normalized response: either a finished outcome
(`Sum.inl`: the returned value, or a propagated exception), or
(`Sum.inr`) a request for the `analyze_changes` tool, which makes the
orchestrator run the local analysis and issue one more provider call via
`_continue_conversation`.  The `json.loads` of the arguments string runs
before the name dispatch, exactly as in the source. -/
def handle_one (changes : List ChangeInfo) (resp : AIResponse) :
    Sum (Except String (Option String)) Unit :=
  match resp.function_call with
  | none => .inl (.ok resp.content)
  | some fc =>
    match fc.arguments with
    | .malformed => .inl (.error "json.loads failed")
    | .parsed fields =>
      if fc.name = "analyze_changes" then .inr ()
      else if fc.name = "format_commit_message" then
        match lookup_field fields "type", lookup_field fields "description",
            lookup_field fields "details" with
        | some t, some d, some dt =>
          .inl (.ok (some (t ++ ": " ++ d ++ "\n\n\n" ++ dt)))
        | _, _, _ => .inl (.error "KeyError")
      else .inl (.ok none)

/-- The mutual recursion of `_handle_ai_response` (lines 314-335) and
`_continue_conversation` (lines 337-369), run against a scripted provider
double: `script` lists the responses the provider returns to the
successive `_call_ai_api` calls made by `_continue_conversation` (an
exhausted script models a provider failure on the attempted call).  The
result pairs the returned value with the number of additional provider
calls attempted.  The locally computed analysis only feeds the appended
message content (see `continue_conversation_request`); it does not
influence this control flow. -/
def handle_loop (changes : List ChangeInfo) :
    List AIResponse → AIResponse → Except String (Option String) × Nat
  | [], resp =>
    match handle_one changes resp with
    | .inl v => (v, 0)
    | .inr _ => (.error "provider call failed", 1)
  | next :: rest, resp =>
    match handle_one changes resp with
    | .inl v => (v, 0)
    | .inr _ =>
      let r := handle_loop changes rest next
      (r.1, r.2 + 1)

/-- Embedding of `GitCommitAgent._handle_ai_response` applied to a first
response, against the scripted provider double `script`. -/
def handle_ai_response (changes : List ChangeInfo) (resp : AIResponse)
    (script : List AIResponse) : Except String (Option String) × Nat :=
  handle_loop changes script resp

/-! ## Specification-side definitions

These two definitions follow the wording of the specification (not the
code) and exist to be compared with the code-derived definitions above. -/

/-- Specification-side line count for claim C3: the number of lines of the
diff text beginning with the marker character, with diff header lines
(those beginning with the tripled marker, e.g. `+++`/`---`) excluded. -/
def spec_line_count (marker : Char) (hdr : List Char) (s : List Char) : Nat :=
  ((linesOf s).filter
    (fun l => decide (l.head? = some marker) && !(hdr.isPrefixOf l))).length

/-- `big` contains `small` as a contiguous substring. -/
def str_contains (big small : String) : Prop :=
  ∃ s t : String, big = s ++ small ++ t

/-! ## Helper lemmas -/

theorem str_contains_append_left (a b m : String) (h : str_contains b m) :
    str_contains (a ++ b) m := by
  obtain ⟨s, t, rfl⟩ := h
  exact ⟨a ++ s, t, by simp [String.append_assoc]⟩

theorem str_contains_append_right (a b m : String) (h : str_contains a m) :
    str_contains (a ++ b) m := by
  obtain ⟨s, t, rfl⟩ := h
  exact ⟨s, t ++ b, by simp [String.append_assoc]⟩

/-- Each change block contains the raw diff of its change. -/
theorem change_block_contains_diff (ch : ChangeInfo) :
    str_contains (change_block ch) ch.diff := by
  refine ⟨"File: " ++ ch.path ++ "\n" ++
    "Change Status: " ++ change_type_desc ch.change_type ++ "\n" ++
    "Changes: +" ++ toString ch.additions ++ ", -" ++ toString ch.deletions ++ "\n" ++
    "File type: " ++ ch.file_type ++ "\n" ++
    "Change description: Changes to this file include modifications to " ++
    "add or update functionality as shown in the diff below.\n" ++
    "Diff:\n", "\n\n", ?_⟩
  simp only [change_block, String.append_assoc]

/-- The summary fold only extends its accumulator on the left. -/
theorem foldl_block_extends (l : List ChangeInfo) :
    ∀ init : String, ∃ r : String,
      l.foldl (fun acc ch => acc ++ change_block ch) init = init ++ r := by
  induction l with
  | nil => intro init; exact ⟨"", (String.append_empty init).symm⟩
  | cons c l ih =>
    intro init
    obtain ⟨r, hr⟩ := ih (init ++ change_block c)
    exact ⟨change_block c ++ r, by
      simp only [List.foldl_cons, hr, String.append_assoc]⟩

/-- Every change's raw diff is contained in the summary fold. -/
theorem foldl_block_contains (l : List ChangeInfo) (ch : ChangeInfo) :
    ∀ init : String, ch ∈ l →
      str_contains (l.foldl (fun acc c => acc ++ change_block c) init) ch.diff := by
  induction l with
  | nil => intro _ h; exact absurd h (List.not_mem_nil ch)
  | cons c l ih =>
    intro init hmem
    rcases List.mem_cons.mp hmem with hceq | hmem2
    · subst hceq
      simp only [List.foldl_cons]
      obtain ⟨r, hr⟩ := foldl_block_extends l (init ++ change_block ch)
      rw [hr]
      apply str_contains_append_right
      apply str_contains_append_left
      exact change_block_contains_diff ch
    · simp only [List.foldl_cons]
      exact ih (init ++ change_block c) hmem2

/-- Every change's raw diff is contained in the prepared summary string. -/
theorem prepare_summary_contains_diff (changes : List ChangeInfo)
    (untracked : List String) (ch : ChangeInfo) (h : ch ∈ changes) :
    str_contains (prepare_changes_summary changes untracked) ch.diff := by
  unfold prepare_changes_summary
  apply str_contains_append_right
  exact foldl_block_contains changes ch "Changes to be committed:\n\n" h

/-- Every change's raw diff is contained in the initial user message of
`decide_next_action`. -/
theorem initial_user_content_contains_diff (changes : List ChangeInfo)
    (untracked : List String) (ch : ChangeInfo) (h : ch ∈ changes) :
    str_contains (initial_user_content changes untracked) ch.diff := by
  unfold initial_user_content
  apply str_contains_append_left
  exact prepare_summary_contains_diff changes untracked ch h

/-- Closed form of `collect_with_warnings`: the records of the successful
items in order, and one warning per failing item in order. -/
theorem collect_with_warnings_eq {α : Type} (proc : α → Except String ChangeInfo)
    (path_of : α → String) (items : List α) :
    collect_with_warnings proc path_of items =
      (items.filterMap (fun it => (proc it).toOption),
       items.filterMap (fun it =>
         match proc it with
         | .ok _ => none
         | .error e => some (warn_msg (path_of it) e))) := by
  have go : ∀ (l : List α) (cs : List ChangeInfo) (ws : List ConsoleMsg),
      l.foldl
        (fun acc it =>
          match proc it with
          | .ok ci => (acc.1 ++ [ci], acc.2)
          | .error e => (acc.1, acc.2 ++ [warn_msg (path_of it) e]))
        (cs, ws) =
      (cs ++ l.filterMap (fun it => (proc it).toOption),
       ws ++ l.filterMap (fun it =>
         match proc it with
         | .ok _ => none
         | .error e => some (warn_msg (path_of it) e))) := by
    intro l
    induction l with
    | nil => intro cs ws; simp
    | cons x l ih =>
      intro cs ws
      simp only [List.foldl_cons, List.filterMap_cons]
      cases hx : proc x with
      | ok ci => simp only [hx, Except.toOption, ih, List.append_assoc,
          List.singleton_append]
      | error e => simp only [hx, Except.toOption, ih, List.append_assoc,
          List.singleton_append]
  simpa [collect_with_warnings] using go items [] []

theorem except_toOption_eq_some {ε α : Type} (x : Except ε α) (a : α) :
    x.toOption = some a ↔ x = .ok a := by
  cases x <;> simp [Except.toOption]

/-- Counts carried by any record built by the with-history branch are the
marker counts of that record's own diff text. -/
theorem processEntry_ok_counts (g : String → Except String String) (d : DiffEntry)
    (ci : ChangeInfo) (h : processEntry g d = .ok ci) :
    ci.additions = count_nl_marker '+' ci.diff.data ∧
    ci.deletions = count_nl_marker '-' ci.diff.data := by
  unfold processEntry at h
  cases hg : g d.a_path with
  | error e => rw [hg] at h; exact absurd h (by simp)
  | ok t =>
    rw [hg] at h
    have h2 : mk_change_info d.a_path t (change_type_of d) = ci := by
      injection h
    subst h2
    simp [mk_change_info]

/-! ## Shared concrete inputs used to witness the theorems -/

/-- A representative raw `git diff --cached` output: one added and one
removed body line, plus the usual `---`/`+++` header pair. -/
def ex_diff : String :=
  "diff --git a/f.txt b/f.txt\n" ++
  "index 0000000..1111111 100644\n" ++
  "--- a/f.txt\n" ++
  "+++ b/f.txt\n" ++
  "@@ -1,2 +1,2 @@\n" ++
  "-old line\n" ++
  "+new line\n"

/-- A staged-diff entry for a modified file. -/
def ex_entry : DiffEntry :=
  { a_path := "f.txt", new_file := false, deleted_file := false, renamed := false }

/-- A diff oracle answering `ex_diff` for every path. -/
def ex_get_diff : String → Except String String := fun _ => .ok ex_diff

/-- The record the with-history branch builds from `ex_entry`. -/
def ex_record : ChangeInfo := mk_change_info "f.txt" ex_diff "M"

/-- A repository model with one commit-relative staged entry. -/
def ex_repo1 : GitRepoModel :=
  { index_diff_head := .ok [ex_entry]
    git_diff_cached := ex_get_diff
    name_only_output := .ok ""
    tree_lookup := fun _ => .error .keyError
    untracked_files := [] }

/-- C2.  For every sequence of staged-change records, the
`total_additions`/`total_deletions` of the summary returned by
`analyze_changes` (both the `GitAnalyzer` and the `GitCommitAgent`
version) equal the sum over all records of that record's additions and
deletions, each per-record count being the marker count computed from that
record's own diff text. -/
theorem C2_totals_are_sums (repo : GitRepoModel) (entries : List DiffEntry)
    (C : List ChangeInfo) (L : List ConsoleMsg)
    (hidx : repo.index_diff_head = .ok entries)
    (hget : get_staged_changes repo = .ok (C, L)) :
    (analyzer_analyze_changes repo).map (fun r => r.analysis.total_additions) =
      .ok ((C.map (fun ci => count_nl_marker '+' ci.diff.data)).sum) ∧
    (analyzer_analyze_changes repo).map (fun r => r.analysis.total_deletions) =
      .ok ((C.map (fun ci => count_nl_marker '-' ci.diff.data)).sum) ∧
    (agent_analyze_changes C).total_additions =
      (C.map (fun ci => count_nl_marker '+' ci.diff.data)).sum ∧
    (agent_analyze_changes C).total_deletions =
      (C.map (fun ci => count_nl_marker '-' ci.diff.data)).sum := by
  have hbranch : get_staged_changes repo =
      .ok (collect_with_warnings (processEntry repo.git_diff_cached)
        (fun d => d.a_path) entries) := by
    simp only [get_staged_changes, hidx]
  rw [hget, collect_with_warnings_eq] at hbranch
  have hpair := Except.ok.inj hbranch
  have hC : C = entries.filterMap (fun d => (processEntry repo.git_diff_cached d).toOption) :=
    congrArg Prod.fst hpair
  have hcounts : ∀ ci ∈ C,
      ci.additions = count_nl_marker '+' ci.diff.data ∧
      ci.deletions = count_nl_marker '-' ci.diff.data := by
    intro ci hci
    rw [hC] at hci
    obtain ⟨d, _, hsome⟩ := List.mem_filterMap.mp hci
    exact processEntry_ok_counts _ _ _ ((except_toOption_eq_some _ _).mp hsome)
  have hsum_add : (C.map ChangeInfo.additions).sum =
      (C.map (fun ci => count_nl_marker '+' ci.diff.data)).sum := by
    congr 1
    exact List.map_congr_left (fun ci hci => (hcounts ci hci).1)
  have hsum_del : (C.map ChangeInfo.deletions).sum =
      (C.map (fun ci => count_nl_marker '-' ci.diff.data)).sum := by
    congr 1
    exact List.map_congr_left (fun ci hci => (hcounts ci hci).2)
  have hagent_add : (agent_analyze_changes C).total_additions =
      (C.map (fun ci => count_nl_marker '+' ci.diff.data)).sum := by
    rw [agent_analyze_changes, foldl_step_total_additions, ← hsum_add]
    simp [init_analysis]
  have hagent_del : (agent_analyze_changes C).total_deletions =
      (C.map (fun ci => count_nl_marker '-' ci.diff.data)).sum := by
    rw [agent_analyze_changes, foldl_step_total_deletions, ← hsum_del]
    simp [init_analysis]
  refine ⟨?_, ?_, hagent_add, hagent_del⟩
  · simp only [analyzer_analyze_changes, analyzer_prepare_changes_summary, hget,
      Except.map]
    rw [foldl_step_total_additions, ← hsum_add]
    simp [init_analysis]
  · simp only [analyzer_analyze_changes, analyzer_prepare_changes_summary, hget,
      Except.map]
    rw [foldl_step_total_deletions, ← hsum_del]
    simp [init_analysis]

/-- Witness for C2 at a concrete one-file repository. -/
theorem C2_totals_witness :
    (analyzer_analyze_changes ex_repo1).map (fun r => r.analysis.total_additions) =
      .ok (([ex_record].map (fun ci => count_nl_marker '+' ci.diff.data)).sum) ∧
    (analyzer_analyze_changes ex_repo1).map (fun r => r.analysis.total_deletions) =
      .ok (([ex_record].map (fun ci => count_nl_marker '-' ci.diff.data)).sum) ∧
    (agent_analyze_changes [ex_record]).total_additions =
      ([ex_record].map (fun ci => count_nl_marker '+' ci.diff.data)).sum ∧
    (agent_analyze_changes [ex_record]).total_deletions =
      ([ex_record].map (fun ci => count_nl_marker '-' ci.diff.data)).sum :=
  C2_totals_are_sums ex_repo1 [ex_entry] [ex_record] [] rfl rfl

/-- C4.  A record's path appears in `major_changes` iff its
additions+deletions exceed 50, for any change list with distinct paths
(staged records are one per staged file). -/
theorem C4_major_changes_threshold (changes : List ChangeInfo)
    (hnodup : (changes.map ChangeInfo.path).Nodup) :
    ∀ ch ∈ changes,
      (ch.path ∈ (agent_analyze_changes changes).major_changes ↔
        50 < ch.additions + ch.deletions) := by
  intro ch hch
  have hmajor : (agent_analyze_changes changes).major_changes =
      (changes.filter (fun c => decide (50 < c.additions + c.deletions))).map
        ChangeInfo.path := by
    rw [agent_analyze_changes, foldl_step_major_changes]
    simp [init_analysis]
  rw [hmajor]
  constructor
  · intro hmem
    obtain ⟨c, hcf, hpath⟩ := List.mem_map.mp hmem
    obtain ⟨hcl, hcp⟩ := List.mem_filter.mp hcf
    have hceq : c = ch := List.inj_on_of_nodup_map hnodup hcl hch hpath
    subst hceq
    exact of_decide_eq_true hcp
  · intro hlt
    exact List.mem_map.mpr ⟨ch,
      List.mem_filter.mpr ⟨hch, decide_eq_true hlt⟩, rfl⟩

/-- A record totalling exactly 50 changed lines. -/
def rec50 : ChangeInfo :=
  { path := "a.py", change_type := "M", additions := 25, deletions := 25,
    diff := "", file_type := "py" }

/-- A record totalling 51 changed lines. -/
def rec51 : ChangeInfo :=
  { path := "b.py", change_type := "M", additions := 26, deletions := 25,
    diff := "", file_type := "py" }

/-- Witness for C4 at the 50/51 boundary: the 50-line record is excluded
and the 51-line record included. -/
theorem C4_major_witness :
    (rec50.path ∈ (agent_analyze_changes [rec50, rec51]).major_changes ↔
      50 < rec50.additions + rec50.deletions) ∧
    (rec51.path ∈ (agent_analyze_changes [rec50, rec51]).major_changes ↔
      50 < rec51.additions + rec51.deletions) :=
  ⟨C4_major_changes_threshold [rec50, rec51] (by decide) rec50 (by decide),
   C4_major_changes_threshold [rec50, rec51] (by decide) rec51 (by decide)⟩

/-- C5.  If processing the diff of one staged file raises, the exception is
caught: `get_staged_changes` still succeeds, a warning naming that file is
printed, that file is omitted, and a record is returned for every
remaining file. -/
theorem C5_partial_failure_isolation (repo : GitRepoModel)
    (pre post : List DiffEntry) (bad : DiffEntry) (msg : String)
    (hidx : repo.index_diff_head = .ok (pre ++ bad :: post))
    (hbad : processEntry repo.git_diff_cached bad = .error msg)
    (hok : ∀ d ∈ pre ++ post, ∃ ci, processEntry repo.git_diff_cached d = .ok ci) :
    ∃ C L, get_staged_changes repo = .ok (C, L) ∧
      C = (pre ++ post).filterMap
        (fun d => (processEntry repo.git_diff_cached d).toOption) ∧
      (∀ d ∈ pre ++ post, ∃ ci ∈ C, processEntry repo.git_diff_cached d = .ok ci) ∧
      warn_msg bad.a_path msg ∈ L := by
  have hbranch : get_staged_changes repo =
      .ok (collect_with_warnings (processEntry repo.git_diff_cached)
        (fun d => d.a_path) (pre ++ bad :: post)) := by
    simp only [get_staged_changes, hidx]
  rw [collect_with_warnings_eq] at hbranch
  refine ⟨_, _, hbranch, ?_, ?_, ?_⟩
  · rw [List.filterMap_append, List.filterMap_append, List.filterMap_cons]
    simp [hbad, Except.toOption]
  · intro d hd
    obtain ⟨ci, hci⟩ := hok d hd
    refine ⟨ci, ?_, hci⟩
    apply List.mem_filterMap.mpr
    refine ⟨d, ?_, by simp [hci, Except.toOption]⟩
    rcases List.mem_append.mp hd with h | h
    · exact List.mem_append.mpr (Or.inl h)
    · exact List.mem_append.mpr (Or.inr (List.mem_cons_of_mem bad h))
  · apply List.mem_filterMap.mpr
    refine ⟨bad, ?_, by simp [hbad]⟩
    exact List.mem_append.mpr (Or.inr (List.mem_cons_self bad post))

/-- A staged entry whose diff retrieval fails (e.g. binary content). -/
def ex_bad_entry : DiffEntry :=
  { a_path := "bin.dat", new_file := true, deleted_file := false, renamed := false }

/-- A second good staged entry. -/
def ex_entry2 : DiffEntry :=
  { a_path := "g.txt", new_file := false, deleted_file := false, renamed := false }

/-- A repository model in which exactly the `bin.dat` diff raises. -/
def ex_repo5 : GitRepoModel :=
  { index_diff_head := .ok [ex_entry, ex_bad_entry, ex_entry2]
    git_diff_cached := fun p => if p = "bin.dat" then .error "binary" else .ok ex_diff
    name_only_output := .ok ""
    tree_lookup := fun _ => .error .keyError
    untracked_files := [] }

/-- Witness for C5 at a concrete repository whose middle file fails. -/
theorem C5_partial_failure_witness :
    ∃ C L, get_staged_changes ex_repo5 = .ok (C, L) ∧
      C = ([ex_entry] ++ [ex_entry2]).filterMap
        (fun d => (processEntry ex_repo5.git_diff_cached d).toOption) ∧
      (∀ d ∈ [ex_entry] ++ [ex_entry2],
        ∃ ci ∈ C, processEntry ex_repo5.git_diff_cached d = .ok ci) ∧
      warn_msg ex_bad_entry.a_path "binary" ∈ L :=
  C5_partial_failure_isolation ex_repo5 [ex_entry] [ex_entry2] ex_bad_entry "binary"
    rfl rfl
    (by
      intro d hd
      rcases List.mem_cons.mp hd with h | h
      · subst h; exact ⟨_, rfl⟩
      · rcases List.mem_cons.mp h with h2 | h2
        · subst h2; exact ⟨_, rfl⟩
        · exact absurd h2 (List.not_mem_nil d))

/-- C6.  In a repository with no prior commits (`index.diff("HEAD")`
raises), every record returned by `get_staged_changes` is classified
Modified exactly when the lookup of its path in the prior tree snapshot
succeeded, and Added exactly when that lookup raised `KeyError` or
`ValueError`. -/
theorem C6_new_repo_classification (repo : GitRepoModel) (e out : String)
    (C : List ChangeInfo) (L : List ConsoleMsg)
    (hidx : repo.index_diff_head = .error e)
    (hname : repo.name_only_output = .ok out)
    (hget : get_staged_changes repo = .ok (C, L)) :
    ∀ ci ∈ C,
      (ci.change_type = "M" ↔ repo.tree_lookup ci.path = .ok ()) ∧
      (ci.change_type = "A" ↔
        (repo.tree_lookup ci.path = .error .keyError ∨
         repo.tree_lookup ci.path = .error .valueError)) := by
  intro ci hci
  have hbranch : get_staged_changes repo =
      .ok ((collect_with_warnings
          (processNewFile repo.git_diff_cached repo.tree_lookup) (fun f => f)
          ((split_lines out).filter (fun f => decide (f ≠ "")))).1,
        ConsoleMsg.info "Processing new repository..." ::
          (collect_with_warnings
            (processNewFile repo.git_diff_cached repo.tree_lookup) (fun f => f)
            ((split_lines out).filter (fun f => decide (f ≠ "")))).2) := by
    simp only [get_staged_changes, hidx, hname]
  rw [hget] at hbranch
  have hpair := Except.ok.inj hbranch
  have hC : C = ((split_lines out).filter (fun f => decide (f ≠ ""))).filterMap
      (fun f => (processNewFile repo.git_diff_cached repo.tree_lookup f).toOption) := by
    have := congrArg Prod.fst hpair
    simpa [collect_with_warnings_eq] using this
  rw [hC] at hci
  obtain ⟨f, _, hsome⟩ := List.mem_filterMap.mp hci
  have hproc := (except_toOption_eq_some _ _).mp hsome
  unfold processNewFile at hproc
  cases hg : repo.git_diff_cached f with
  | error er => rw [hg] at hproc; exact absurd hproc (by simp)
  | ok t =>
    rw [hg] at hproc
    cases hlk : repo.tree_lookup f with
    | ok u =>
      rw [hlk] at hproc
      have h2 : mk_change_info f t "M" = ci := by injection hproc
      subst h2
      constructor
      · simp only [mk_change_info]
        constructor
        · intro _; rw [hlk]
        · intro _; trivial
      · simp only [mk_change_info]
        constructor
        · intro hMA; exact absurd hMA (by decide)
        · intro hOr
          rw [hlk] at hOr
          rcases hOr with h | h <;> exact absurd h (by simp)
    | error te =>
      cases te with
      | keyError =>
        rw [hlk] at hproc
        have h2 : mk_change_info f t "A" = ci := by injection hproc
        subst h2
        constructor
        · simp only [mk_change_info]
          constructor
          · intro hAM; exact absurd hAM (by decide)
          · intro hOk; rw [hlk] at hOk; exact absurd hOk (by simp)
        · simp only [mk_change_info]
          constructor
          · intro _; rw [hlk]; exact Or.inl rfl
          · intro _; trivial
      | valueError =>
        rw [hlk] at hproc
        have h2 : mk_change_info f t "A" = ci := by injection hproc
        subst h2
        constructor
        · simp only [mk_change_info]
          constructor
          · intro hAM; exact absurd hAM (by decide)
          · intro hOk; rw [hlk] at hOk; exact absurd hOk (by simp)
        · simp only [mk_change_info]
          constructor
          · intro _; rw [hlk]; exact Or.inr rfl
          · intro _; trivial
      | other msg =>
        rw [hlk] at hproc
        exact absurd hproc (by simp)

/-- A repository model with no prior commits: the index diff raises, the
tree lookup succeeds only for `old.txt`. -/
def ex_repo6 : GitRepoModel :=
  { index_diff_head := .error "Reference at refs/heads/master does not exist"
    git_diff_cached := fun _ => .ok ex_diff
    name_only_output := .ok "old.txt\nnew.txt"
    tree_lookup := fun p => if p = "old.txt" then .ok () else .error .keyError
    untracked_files := [] }

/-- Witness for C6 at a concrete no-commit repository. -/
theorem C6_new_repo_witness :
    ((mk_change_info "new.txt" ex_diff "A").change_type = "M" ↔
      ex_repo6.tree_lookup (mk_change_info "new.txt" ex_diff "A").path = .ok ()) ∧
    ((mk_change_info "new.txt" ex_diff "A").change_type = "A" ↔
      (ex_repo6.tree_lookup (mk_change_info "new.txt" ex_diff "A").path =
          .error .keyError ∨
       ex_repo6.tree_lookup (mk_change_info "new.txt" ex_diff "A").path =
          .error .valueError)) :=
  C6_new_repo_classification ex_repo6
    "Reference at refs/heads/master does not exist" "old.txt\nnew.txt"
    [mk_change_info "old.txt" ex_diff "M", mk_change_info "new.txt" ex_diff "A"]
    [ConsoleMsg.info "Processing new repository..."]
    rfl rfl rfl
    (mk_change_info "new.txt" ex_diff "A")
    (List.mem_cons_of_mem _ (List.mem_cons_self _ _))


/-- C10.  A provider response carrying a function call whose name is
neither `analyze_changes` nor `format_commit_message` (with parseable
arguments) makes the response handler return no commit message, even when
the response also carries text content. -/
theorem C10_unknown_function_returns_none (changes : List ChangeInfo)
    (resp : AIResponse) (script : List AIResponse) (fc : FunctionCallVal)
    (fields : List (String × String))
    (hfc : resp.function_call = some fc)
    (hargs : fc.arguments = .parsed fields)
    (hn1 : fc.name ≠ "analyze_changes")
    (hn2 : fc.name ≠ "format_commit_message") :
    (handle_ai_response changes resp script).1 = .ok none := by
  have hone : handle_one changes resp = .inl (.ok none) := by
    unfold handle_one
    rw [hfc]
    simp [hargs, hn1, hn2]
  cases script with
  | nil => simp [handle_ai_response, handle_loop, hone]
  | cons next rest => simp [handle_ai_response, handle_loop, hone]

/-- A response with text content and an unrecognized function call. -/
def resp_unknown : AIResponse :=
  { content := some "Some explanatory text"
    function_call := some { name := "delete_repo", arguments := .parsed [] } }

/-- Witness for C10 at a concrete unrecognized function call carrying
text content. -/
theorem C10_unknown_function_witness :
    (handle_ai_response [] resp_unknown []).1 = .ok none :=
  C10_unknown_function_returns_none [] resp_unknown []
    { name := "delete_repo", arguments := .parsed [] } []
    rfl rfl (by decide) (by decide)

/-- C1 counterexample.  With the Anthropic-style variant configured, the
first provider call of `decide_next_action` carries no forced tool choice
at all: `_call_ai_api` drops the `function_call` argument in its non-OpenAI
branch, so the provider cannot observe `analyze_changes` being forced. -/
theorem C1_counterexample :
    observed_function_call (first_call_request .anthropic "claude-3-opus" [] []) = none ∧
    observed_function_call (first_call_request .anthropic "claude-3-opus" [] []) ≠
      some "analyze_changes" := by
  refine ⟨rfl, ?_⟩
  intro h
  exact Option.noConfusion h

/-- C1 (amended).  `decide_next_action` always passes the forced
`analyze_changes` tool choice to `_call_ai_api` on its first call, but only
the OpenAI variant forwards it to the provider; the Anthropic-style and
local variants send a request carrying no tool choice at all. -/
theorem C1_forced_tool_choice_per_variant (model : String)
    (changes : List ChangeInfo) (untracked : List String) :
    observed_function_call (first_call_request .openai model changes untracked) =
      some "analyze_changes" ∧
    observed_function_call (first_call_request .anthropic model changes untracked) = none ∧
    observed_function_call (first_call_request .local model changes untracked) = none :=
  ⟨rfl, rfl, rfl⟩

/-- C3 counterexample.  On a representative diff, the stored counts (2/2)
differ from the specification-side counts that exclude the `+++`/`---`
header lines (1/1): the code counts the header lines too. -/
theorem C3_counterexample :
    processEntry ex_get_diff ex_entry = .ok ex_record ∧
    ex_record.additions = 2 ∧
    spec_line_count '+' ['+', '+', '+'] ex_record.diff.data = 1 ∧
    ex_record.deletions = 2 ∧
    spec_line_count '-' ['-', '-', '-'] ex_record.diff.data = 1 ∧
    ex_record.additions ≠ spec_line_count '+' ['+', '+', '+'] ex_record.diff.data ∧
    ex_record.deletions ≠ spec_line_count '-' ['-', '-', '-'] ex_record.diff.data := by
  refine ⟨rfl, ?_, ?_, ?_, ?_, ?_, ?_⟩ <;> decide

/-- C3 (amended).  For every staged file, the additions and deletions
counts in its record equal the number of lines of that file's raw diff
text, other than its first line, beginning with the insertion marker and
the deletion marker respectively - with the diff header lines
(`+++`/`---`) included in these counts, not excluded. -/
theorem C3_counts_include_headers (g : String → Except String String)
    (d : DiffEntry) (ci : ChangeInfo) (h : processEntry g d = .ok ci) :
    ci.additions =
      ((linesOf ci.diff.data).drop 1).countP (fun l => decide (l.head? = some '+')) ∧
    ci.deletions =
      ((linesOf ci.diff.data).drop 1).countP (fun l => decide (l.head? = some '-')) := by
  obtain ⟨ha, hd⟩ := processEntry_ok_counts g d ci h
  constructor
  · rw [ha, count_nl_marker_eq_countP '+' (by decide)]
  · rw [hd, count_nl_marker_eq_countP '-' (by decide)]

/-- Witness for the amended C3 at the representative diff. -/
theorem C3_counts_witness :
    ex_record.additions =
      ((linesOf ex_record.diff.data).drop 1).countP
        (fun l => decide (l.head? = some '+')) ∧
    ex_record.deletions =
      ((linesOf ex_record.diff.data).drop 1).countP
        (fun l => decide (l.head? = some '-')) :=
  C3_counts_include_headers ex_get_diff ex_entry ex_record rfl

/-- C7 counterexample.  The initial prompt of `decide_next_action` does
contain diff content: at a concrete one-file change set, the (non-empty)
raw diff text of the file occurs verbatim inside the initial user message. -/
theorem C7_counterexample :
    str_contains (initial_user_content [ex_record] []) ex_record.diff ∧
    ex_record.diff ≠ "" := by
  constructor
  · exact initial_user_content_contains_diff [ex_record] [] ex_record
      (List.mem_singleton.mpr rfl)
  · decide

/-- C7 (amended).  The initial user message built at the start of
`decide_next_action` embeds the full raw diff text of every staged change
(via `_prepare_changes_summary`); the model does not need to invoke the
`analyze_changes` tool to obtain diff data. -/
theorem C7_initial_prompt_contains_diffs (changes : List ChangeInfo)
    (untracked : List String) (ch : ChangeInfo) (h : ch ∈ changes) :
    str_contains (initial_user_content changes untracked) ch.diff :=
  initial_user_content_contains_diff changes untracked ch h

/-- Witness for the amended C7 at a concrete one-file change set. -/
theorem C7_initial_prompt_witness :
    str_contains (initial_user_content [ex_record] []) ex_record.diff :=
  C7_initial_prompt_contains_diffs [ex_record] [] ex_record
    (List.mem_singleton.mpr rfl)

/-- C8 counterexample.  The second provider call of the orchestrator is
not free of forced tool choice: with the OpenAI variant it forces the
`format_commit_message` tool. -/
theorem C8_counterexample :
    observed_function_call
      (continue_conversation_request .openai "gpt-4" (initial_history [] [])
        (agent_analyze_changes [])) = some "format_commit_message" ∧
    some "format_commit_message" ≠ (none : Option String) := by
  refine ⟨rfl, ?_⟩
  intro h
  exact Option.noConfusion h

/-- C8 (amended).  After the tool invocation is received,
`_continue_conversation` issues the second provider call with the updated
conversation (the history plus the appended analysis message) and with a
forced tool choice naming `format_commit_message` - forwarded to the
provider by the OpenAI variant and dropped by the Anthropic-style and
local variants. -/
theorem C8_second_call_forces_format (model : String)
    (history : List ChatMessage) (a : Analysis) :
    request_messages (continue_conversation_request .openai model history a) =
      history ++ [analysis_user_message a] ∧
    observed_function_call (continue_conversation_request .openai model history a) =
      some "format_commit_message" ∧
    observed_function_call (continue_conversation_request .anthropic model history a) =
      none ∧
    observed_function_call (continue_conversation_request .local model history a) =
      none :=
  ⟨rfl, rfl, rfl, rfl⟩

/-- A scripted response that requests the `analyze_changes` tool. -/
def analyze_resp : AIResponse :=
  { content := none
    function_call := some { name := "analyze_changes", arguments := .parsed [] } }

/-- Consuming a script of `n` analyze requests performs `n + 1` provider
call attempts. -/
theorem handle_rounds_replicate (n : Nat) :
    (handle_ai_response [] analyze_resp (List.replicate n analyze_resp)).2 = n + 1 := by
  induction n with
  | zero => rfl
  | succ n ih =>
    show (handle_loop [] (List.replicate (n + 1) analyze_resp) analyze_resp).2 = n + 1 + 1
    rw [List.replicate_succ]
    show ((handle_loop [] (List.replicate n analyze_resp) analyze_resp).1,
      (handle_loop [] (List.replicate n analyze_resp) analyze_resp).2 + 1).2 = n + 1 + 1
    rw [show (handle_loop [] (List.replicate n analyze_resp) analyze_resp).2 = n + 1 from ih]

/-- C9 counterexample.  The orchestrator's response handling performs no
bounded number of additional rounds: for every candidate bound there is a
scripted response sequence (all requesting `analyze_changes` again) that
makes it recurse beyond the bound. -/
theorem C9_counterexample :
    ¬ ∃ B : Nat, ∀ script : List AIResponse,
      (handle_ai_response [] analyze_resp script).2 ≤ B := by
  rintro ⟨B, hB⟩
  have h := hB (List.replicate B analyze_resp)
  rw [handle_rounds_replicate] at h
  omega

/-- C9 (amended).  The response handling recurses once per additional
`analyze_changes` response with no built-in bound: when the first response
and the next `n` scripted responses all request `analyze_changes` and the
following response carries plain content, the orchestrator makes exactly
`n + 1` additional provider calls and returns that content.  Termination
comes only from the response stream, not from any loop bound in the code. -/
theorem C9_rounds_follow_script (changes : List ChangeInfo) (n : Nat)
    (r final : AIResponse) (fc : FunctionCallVal) (fields : List (String × String))
    (hr : r.function_call = some fc)
    (hname : fc.name = "analyze_changes")
    (hargs : fc.arguments = .parsed fields)
    (hfinal : final.function_call = none) :
    handle_ai_response changes r (List.replicate n r ++ [final]) =
      (.ok final.content, n + 1) := by
  have hone : handle_one changes r = .inr () := by
    unfold handle_one
    rw [hr]
    simp [hargs, hname]
  have hfin : handle_one changes final = .inl (.ok final.content) := by
    unfold handle_one
    rw [hfinal]
  induction n with
  | zero =>
    show handle_loop changes ([] ++ [final]) r = (.ok final.content, 0 + 1)
    rw [List.nil_append]
    show (match handle_one changes r with
      | .inl v => (v, 0)
      | .inr _ =>
        let rr := handle_loop changes [] final
        (rr.1, rr.2 + 1)) = (.ok final.content, 0 + 1)
    rw [hone]
    show ((handle_loop changes [] final).1, (handle_loop changes [] final).2 + 1) =
      (.ok final.content, 0 + 1)
    have : handle_loop changes [] final = (.ok final.content, 0) := by
      show (match handle_one changes final with
        | .inl v => (v, 0)
        | .inr _ => (.error "provider call failed", 1)) = (.ok final.content, 0)
      rw [hfin]
    rw [this]
  | succ n ih =>
    show handle_loop changes (List.replicate (n + 1) r ++ [final]) r =
      (.ok final.content, n + 1 + 1)
    rw [List.replicate_succ, List.cons_append]
    show (match handle_one changes r with
      | .inl v => (v, 0)
      | .inr _ =>
        let rr := handle_loop changes (List.replicate n r ++ [final]) r
        (rr.1, rr.2 + 1)) = (.ok final.content, n + 1 + 1)
    rw [hone]
    show ((handle_loop changes (List.replicate n r ++ [final]) r).1,
      (handle_loop changes (List.replicate n r ++ [final]) r).2 + 1) =
      (.ok final.content, n + 1 + 1)
    have hih : handle_loop changes (List.replicate n r ++ [final]) r =
        (.ok final.content, n + 1) := ih
    rw [hih]

/-- A scripted plain-text final response. -/
def final_resp : AIResponse :=
  { content := some "feat: add widget\n\n\nDetails.", function_call := none }

/-- Witness for the amended C9: two extra analyze requests yield exactly
three additional provider calls and the final text. -/
theorem C9_rounds_witness :
    handle_ai_response [] analyze_resp (List.replicate 2 analyze_resp ++ [final_resp]) =
      (.ok final_resp.content, 2 + 1) :=
  C9_rounds_follow_script [] 2 analyze_resp final_resp
    { name := "analyze_changes", arguments := .parsed [] } []
    rfl rfl rfl rfl
